import Mathlib

/-!
Verification of the PyBaMM battery-model pipeline excerpt: symbolic
expression trees with structural identity, parameter processing,
discretisation, submodel composition, and the SPM model-family dispatch
on the dimensionality option.

Definitions are shallow embeddings of the Python source under `src/`.
Components of the pipeline whose implementation is not in the excerpt
(the expression-tree id machinery, `ParameterValues`, `Discretisation`,
`BaseModel.update`, `BaseBatteryModel` option validation) are modelled
from the specification, as marked in their doc comments.
-/

namespace PyBaMM

/-- Symbolic expression-tree node, mirroring the pybamm expression types
that appear in the excerpt: `Scalar`, `Parameter`, `Variable` (with a
primary domain and auxiliary domains), `StateVector` (discretised leaf),
`Multiplication`, `Negate`, `Gradient`, the discretised gradient matrix
operator, `PrimaryBroadcast`, and applied functions of one or two
arguments (such as `param.U_n(c)` and `param.D_n(c, T)`). -/
inductive Symbol where
  | scalar (v : Int)
  | param (name : String)
  | var (name : String) (domain : List String) (auxDomains : List String)
  | stateVector (first len : Nat)
  | mul (l r : Symbol)
  | neg (x : Symbol)
  | grad (x : Symbol)
  | gradientMatrix (x : Symbol)
  | broadcast (x : Symbol) (target : List String)
  | app1 (fn : String) (a : Symbol)
  | app2 (fn : String) (a b : Symbol)
deriving DecidableEq, Repr

/-- Injective encoding of a character as a natural number. -/
def encChar (c : Char) : Nat := c.toNat

/-- Injective encoding of a list, given an encoding of its elements. -/
def encList (f : α → Nat) : List α → Nat
  | [] => 0
  | x :: xs => Nat.pair (f x) (encList f xs) + 1

/-- Injective encoding of a string as a natural number. -/
def encStr (s : String) : Nat := encList encChar s.data

/-- Injective encoding of an integer as a natural number. -/
def encInt : Int → Nat
  | .ofNat n => 2 * n
  | .negSucc n => 2 * n + 1

theorem encChar_eq_iff {a b : Char} : encChar a = encChar b ↔ a = b := by
  constructor
  · intro h
    have h2 := congrArg Char.ofNat h
    simp only [encChar] at h2
    rwa [Char.ofNat_toNat, Char.ofNat_toNat] at h2
  · intro h; rw [h]

theorem encInt_eq_iff {a b : Int} : encInt a = encInt b ↔ a = b := by
  constructor
  · intro h
    cases a <;> cases b <;>
      simp only [encInt] at h <;>
      simp only [Int.ofNat_eq_coe, Int.negSucc_eq] <;> omega
  · intro h; rw [h]

theorem encList_eq_iff {f : α → Nat} (hf : ∀ {x y : α}, f x = f y ↔ x = y) :
    ∀ {l₁ l₂ : List α}, encList f l₁ = encList f l₂ ↔ l₁ = l₂ := by
  intro l₁
  induction l₁ with
  | nil => intro l₂; cases l₂ <;> simp [encList]
  | cons x xs ih =>
    intro l₂
    cases l₂ with
    | nil => simp [encList]
    | cons y ys =>
      simp only [encList, Nat.add_right_cancel_iff, Nat.pair_eq_pair, List.cons.injEq]
      rw [hf, ih]

theorem encStr_eq_iff {a b : String} : encStr a = encStr b ↔ a = b := by
  unfold encStr
  rw [encList_eq_iff (fun {x y} => encChar_eq_iff)]
  constructor
  · intro h; cases a; cases b; simp_all
  · intro h; rw [h]

theorem encListStr_eq_iff {a b : List String} :
    encList encStr a = encList encStr b ↔ a = b :=
  encList_eq_iff (fun {x y} => encStr_eq_iff)

/-- Structural identity of an expression node, modelled from the spec:
a memoized fingerprint computed from the node kind, its domain
annotations and the identities of its children; two nodes compare equal
and hash equal exactly when they have identical structure, leaf values
and domain tags. The encoding below is injective, which is proved in
`Symbol.sid_eq_iff`. -/
def Symbol.sid : Symbol → Nat
  | .scalar v => Nat.pair 0 (encInt v)
  | .param n => Nat.pair 1 (encStr n)
  | .var n d a => Nat.pair 2 (Nat.pair (encStr n) (Nat.pair (encList encStr d) (encList encStr a)))
  | .stateVector s l => Nat.pair 3 (Nat.pair s l)
  | .mul l r => Nat.pair 4 (Nat.pair l.sid r.sid)
  | .neg x => Nat.pair 5 x.sid
  | .grad x => Nat.pair 6 x.sid
  | .gradientMatrix x => Nat.pair 7 x.sid
  | .broadcast x d => Nat.pair 8 (Nat.pair x.sid (encList encStr d))
  | .app1 f x => Nat.pair 9 (Nat.pair (encStr f) x.sid)
  | .app2 f x y => Nat.pair 10 (Nat.pair (encStr f) (Nat.pair x.sid y.sid))

theorem Symbol.sid_eq_iff : ∀ a b : Symbol, a.sid = b.sid ↔ a = b := by
  intro a
  induction a with
  | scalar v =>
    intro b; cases b <;> simp [Symbol.sid, Nat.pair_eq_pair, encInt_eq_iff]
  | param n =>
    intro b; cases b <;> simp [Symbol.sid, Nat.pair_eq_pair, encStr_eq_iff]
  | var n d a =>
    intro b; cases b <;>
      simp [Symbol.sid, Nat.pair_eq_pair, encStr_eq_iff, encListStr_eq_iff, and_assoc]
  | stateVector s l =>
    intro b; cases b <;> simp [Symbol.sid, Nat.pair_eq_pair]
  | mul l r ihl ihr =>
    intro b; cases b <;> simp [Symbol.sid, Nat.pair_eq_pair, ihl, ihr]
  | neg x ih =>
    intro b; cases b <;> simp [Symbol.sid, Nat.pair_eq_pair, ih]
  | grad x ih =>
    intro b; cases b <;> simp [Symbol.sid, Nat.pair_eq_pair, ih]
  | gradientMatrix x ih =>
    intro b; cases b <;> simp [Symbol.sid, Nat.pair_eq_pair, ih]
  | broadcast x d ih =>
    intro b; cases b <;> simp [Symbol.sid, Nat.pair_eq_pair, ih, encListStr_eq_iff]
  | app1 f x ih =>
    intro b; cases b <;> simp [Symbol.sid, Nat.pair_eq_pair, ih, encStr_eq_iff]
  | app2 f x y ihx ihy =>
    intro b; cases b <;>
      simp [Symbol.sid, Nat.pair_eq_pair, ihx, ihy, encStr_eq_iff, and_assoc]

/-! ### Variable tables and the submodel merge policy -/

/-- A Variable Table: an insertion-ordered mapping from human-readable
variable names to their defining expression nodes, mirroring the
`model.variables` Python dict. -/
abbrev Table := List (String × Symbol)

/-- First-match lookup in an ordered association list, mirroring Python
dict indexing (`variables[name]`). -/
def lookupTable {α : Type} (k : String) : List (String × α) → Option α
  | [] => none
  | (k2, v) :: rest => if k2 = k then some v else lookupTable k rest

/-- Assignment `d[k] = v` on an ordered dict: replaces the entry if the
key is present, otherwise appends it. -/
def setKey : Table → String → Symbol → Table
  | [], k, v => [(k, v)]
  | (k2, v2) :: rest, k, v =>
      if k2 = k then (k, v) :: rest else (k2, v2) :: setKey rest k v

/-- Python `dict.update`: assigns every entry of `other` into `base`,
silently overwriting any entry whose key is already present. This is the
operation used by the SPM post-processing phase
(`self.variables.update(...)`). -/
def dictUpdate (base : Table) : Table → Table
  | [] => base
  | (k, v) :: rest => dictUpdate (setKey base k v) rest

/-- Modelled from the spec: the missing `BaseModel.update` merge of a
submodel's variable contributions into the receiving model's Variable
Table. A name already present in the receiving table causes a collision
error (no silent overwrite); otherwise the entry is appended. -/
def mergeVars (base : Table) : Table → Except String Table
  | [] => .ok base
  | (k, v) :: rest =>
      if (lookupTable k base).isSome then
        .error ("Submodel collision on variable " ++ k)
      else
        mergeVars (base ++ [(k, v)]) rest

theorem lookupTable_append {α : Type} (k : String) (a b : List (String × α)) :
    lookupTable k (a ++ b) =
      match lookupTable k a with
      | some v => some v
      | none => lookupTable k b := by
  induction a with
  | nil => simp [lookupTable]
  | cons hd tl ih =>
    obtain ⟨k2, v⟩ := hd
    by_cases h : k2 = k <;> simp [lookupTable, h, ih]

theorem lookupTable_eq_none_of_not_mem {α : Type} (k : String)
    (l : List (String × α)) (h : k ∉ l.map Prod.fst) : lookupTable k l = none := by
  induction l with
  | nil => rfl
  | cons hd tl ih =>
    obtain ⟨k2, v⟩ := hd
    simp only [List.map_cons, List.mem_cons] at h
    push_neg at h
    have h1 : ¬ k2 = k := fun he => h.1 he.symm
    simp [lookupTable, h1, ih h.2]

theorem lookupTable_setKey_self (base : Table) (k : String) (v : Symbol) :
    lookupTable k (setKey base k v) = some v := by
  induction base with
  | nil => simp [setKey, lookupTable]
  | cons hd tl ih =>
    obtain ⟨k2, v2⟩ := hd
    by_cases h : k2 = k <;> simp [setKey, h, lookupTable, ih]

/-- If some key is defined both in the receiving table and in the
contributed table, the merge fails with a collision error. -/
theorem mergeVars_collision :
    ∀ (contrib base : Table),
      (∃ k, (lookupTable k base).isSome ∧ (lookupTable k contrib).isSome) →
      ∃ k2, mergeVars base contrib = .error ("Submodel collision on variable " ++ k2) := by
  intro contrib
  induction contrib with
  | nil =>
    intro base h
    obtain ⟨k, _, hk⟩ := h
    simp [lookupTable] at hk
  | cons hd rest ih =>
    intro base h
    obtain ⟨k0, v0⟩ := hd
    by_cases hb : (lookupTable k0 base).isSome
    · exact ⟨k0, by simp [mergeVars, hb]⟩
    · obtain ⟨k, hkb, hkc⟩ := h
      have hkk0 : ¬ k0 = k := by
        intro he; subst he; exact hb hkb
      have hkrest : (lookupTable k rest).isSome := by
        simpa [lookupTable, hkk0] using hkc
      have hkb2 : (lookupTable k (base ++ [(k0, v0)])).isSome := by
        rw [lookupTable_append]
        obtain ⟨v, hv⟩ := Option.isSome_iff_exists.mp hkb
        simp [hv]
      obtain ⟨k2, hk2⟩ := ih (base ++ [(k0, v0)]) ⟨k, hkb2, hkrest⟩
      exact ⟨k2, by simpa [mergeVars, hb] using hk2⟩

/-- If the contributed table has no duplicate keys and is disjoint from
the receiving table, the merge succeeds and the result is the union. -/
theorem mergeVars_disjoint :
    ∀ (contrib base : Table), (contrib.map Prod.fst).Nodup →
      (∀ k, (lookupTable k base).isSome → lookupTable k contrib = none) →
      mergeVars base contrib = .ok (base ++ contrib) := by
  intro contrib
  induction contrib with
  | nil => intro base _ _; simp [mergeVars]
  | cons hd rest ih =>
    intro base hnd hdisj
    obtain ⟨k0, v0⟩ := hd
    simp only [List.map_cons, List.nodup_cons] at hnd
    have hb : lookupTable k0 base = none := by
      by_contra hcon
      have hs : (lookupTable k0 base).isSome := Option.ne_none_iff_isSome.mp hcon
      have := hdisj k0 hs
      simp [lookupTable] at this
    have hrec := ih (base ++ [(k0, v0)]) hnd.2 (by
      intro k hk
      rw [lookupTable_append] at hk
      cases hcase : lookupTable k base with
      | some v =>
        have := hdisj k (by simp [hcase])
        have hkk0 : ¬ k0 = k := by
          intro he; subst he; rw [hb] at hcase; exact Option.noConfusion hcase
        simpa [lookupTable, hkk0] using this
      | none =>
        rw [hcase] at hk
        simp only [lookupTable] at hk
        by_cases hkk0 : k0 = k
        · subst hkk0
          exact lookupTable_eq_none_of_not_mem k0 rest hnd.1
        · simp [hkk0, lookupTable] at hk)
    have hns : ¬ (lookupTable k0 base).isSome := by simp [hb]
    simp only [mergeVars, hns, if_false]
    rw [hrec]
    simp

/-! ### Parameter processing -/

/-- A parameter set: a mapping from parameter name to numeric value,
consumed read-only by the Parameter Processor. -/
abbrev ParamSet := List (String × Int)

/-- Modelled from the spec: the missing `ParameterValues.process_symbol`.
It rewrites an expression tree, substituting every parameter leaf with
the numeric value from the parameter set, and fails with a
missing-parameter error naming the unresolved parameter if the set lacks
an entry. All other nodes are rebuilt unchanged. -/
def processSymbol (pv : ParamSet) : Symbol → Except String Symbol
  | .param n =>
      match lookupTable n pv with
      | some v => .ok (.scalar v)
      | none => .error ("Missing parameter " ++ n)
  | .scalar v => .ok (.scalar v)
  | .var n d a => .ok (.var n d a)
  | .stateVector s l => .ok (.stateVector s l)
  | .mul l r =>
      match processSymbol pv l with
      | .error e => .error e
      | .ok l2 =>
        match processSymbol pv r with
        | .error e => .error e
        | .ok r2 => .ok (.mul l2 r2)
  | .neg x =>
      match processSymbol pv x with
      | .error e => .error e
      | .ok x2 => .ok (.neg x2)
  | .grad x =>
      match processSymbol pv x with
      | .error e => .error e
      | .ok x2 => .ok (.grad x2)
  | .gradientMatrix x =>
      match processSymbol pv x with
      | .error e => .error e
      | .ok x2 => .ok (.gradientMatrix x2)
  | .broadcast x d =>
      match processSymbol pv x with
      | .error e => .error e
      | .ok x2 => .ok (.broadcast x2 d)
  | .app1 f x =>
      match processSymbol pv x with
      | .error e => .error e
      | .ok x2 => .ok (.app1 f x2)
  | .app2 f x y =>
      match processSymbol pv x with
      | .error e => .error e
      | .ok x2 =>
        match processSymbol pv y with
        | .error e => .error e
        | .ok y2 => .ok (.app2 f x2 y2)

/-- A tree is parameter-free when it contains no parameter leaf. -/
def Symbol.paramFree : Symbol → Bool
  | .param _ => false
  | .scalar _ => true
  | .var _ _ _ => true
  | .stateVector _ _ => true
  | .mul l r => l.paramFree && r.paramFree
  | .neg x => x.paramFree
  | .grad x => x.paramFree
  | .gradientMatrix x => x.paramFree
  | .broadcast x _ => x.paramFree
  | .app1 _ x => x.paramFree
  | .app2 _ x y => x.paramFree && y.paramFree

/-- Names of the parameter leaves occurring in a tree. -/
def Symbol.paramNames : Symbol → List String
  | .param n => [n]
  | .scalar _ => []
  | .var _ _ _ => []
  | .stateVector _ _ => []
  | .mul l r => l.paramNames ++ r.paramNames
  | .neg x => x.paramNames
  | .grad x => x.paramNames
  | .gradientMatrix x => x.paramNames
  | .broadcast x _ => x.paramNames
  | .app1 _ x => x.paramNames
  | .app2 _ x y => x.paramNames ++ y.paramNames

/-- Successful parameter processing leaves no parameter leaf behind. -/
theorem processSymbol_ok_paramFree (pv : ParamSet) :
    ∀ s t : Symbol, processSymbol pv s = .ok t → t.paramFree = true := by
  intro s
  induction s with
  | param n =>
    intro t h
    cases hl : lookupTable n pv <;> simp [processSymbol, hl] at h <;>
      simp [← h, Symbol.paramFree]
  | scalar v => intro t h; simp [processSymbol] at h; simp [← h, Symbol.paramFree]
  | var n d a => intro t h; simp [processSymbol] at h; simp [← h, Symbol.paramFree]
  | stateVector s l => intro t h; simp [processSymbol] at h; simp [← h, Symbol.paramFree]
  | mul l r ihl ihr =>
    intro t h
    cases hl : processSymbol pv l with
    | error e => simp [processSymbol, hl] at h
    | ok l2 =>
      cases hr : processSymbol pv r with
      | error e => simp [processSymbol, hl, hr] at h
      | ok r2 =>
        simp [processSymbol, hl, hr] at h
        simp [← h, Symbol.paramFree, ihl l2 hl, ihr r2 hr]
  | neg x ih =>
    intro t h
    cases hx : processSymbol pv x with
    | error e => simp [processSymbol, hx] at h
    | ok x2 => simp [processSymbol, hx] at h; simp [← h, Symbol.paramFree, ih x2 hx]
  | grad x ih =>
    intro t h
    cases hx : processSymbol pv x with
    | error e => simp [processSymbol, hx] at h
    | ok x2 => simp [processSymbol, hx] at h; simp [← h, Symbol.paramFree, ih x2 hx]
  | gradientMatrix x ih =>
    intro t h
    cases hx : processSymbol pv x with
    | error e => simp [processSymbol, hx] at h
    | ok x2 => simp [processSymbol, hx] at h; simp [← h, Symbol.paramFree, ih x2 hx]
  | broadcast x d ih =>
    intro t h
    cases hx : processSymbol pv x with
    | error e => simp [processSymbol, hx] at h
    | ok x2 => simp [processSymbol, hx] at h; simp [← h, Symbol.paramFree, ih x2 hx]
  | app1 f x ih =>
    intro t h
    cases hx : processSymbol pv x with
    | error e => simp [processSymbol, hx] at h
    | ok x2 => simp [processSymbol, hx] at h; simp [← h, Symbol.paramFree, ih x2 hx]
  | app2 f x y ihx ihy =>
    intro t h
    cases hx : processSymbol pv x with
    | error e => simp [processSymbol, hx] at h
    | ok x2 =>
      cases hy : processSymbol pv y with
      | error e => simp [processSymbol, hx, hy] at h
      | ok y2 =>
        simp [processSymbol, hx, hy] at h
        simp [← h, Symbol.paramFree, ihx x2 hx, ihy y2 hy]

/-- Processing a parameter-free tree is the identity. -/
theorem processSymbol_of_paramFree (pv : ParamSet) :
    ∀ s : Symbol, s.paramFree = true → processSymbol pv s = .ok s := by
  intro s
  induction s with
  | param n => intro h; simp [Symbol.paramFree] at h
  | scalar v => intro _; rfl
  | var n d a => intro _; rfl
  | stateVector s l => intro _; rfl
  | mul l r ihl ihr =>
    intro h
    simp only [Symbol.paramFree, Bool.and_eq_true] at h
    simp [processSymbol, ihl h.1, ihr h.2]
  | neg x ih =>
    intro h
    simp only [Symbol.paramFree] at h
    simp [processSymbol, ih h]
  | grad x ih =>
    intro h
    simp only [Symbol.paramFree] at h
    simp [processSymbol, ih h]
  | gradientMatrix x ih =>
    intro h
    simp only [Symbol.paramFree] at h
    simp [processSymbol, ih h]
  | broadcast x d ih =>
    intro h
    simp only [Symbol.paramFree] at h
    simp [processSymbol, ih h]
  | app1 f x ih =>
    intro h
    simp only [Symbol.paramFree] at h
    simp [processSymbol, ih h]
  | app2 f x y ihx ihy =>
    intro h
    simp only [Symbol.paramFree, Bool.and_eq_true] at h
    simp [processSymbol, ihx h.1, ihy h.2]

/-- Every processing failure is a missing-parameter error naming an
unresolved parameter leaf of the input tree. -/
theorem processSymbol_error_shape (pv : ParamSet) :
    ∀ s : Symbol, ∀ e : String, processSymbol pv s = .error e →
      ∃ m, e = "Missing parameter " ++ m ∧ m ∈ s.paramNames ∧
        lookupTable m pv = none := by
  intro s
  induction s with
  | param n =>
    intro e h
    cases hl : lookupTable n pv <;> simp [processSymbol, hl] at h
    exact ⟨n, h.symm, by simp [Symbol.paramNames], hl⟩
  | scalar v => intro e h; simp [processSymbol] at h
  | var n d a => intro e h; simp [processSymbol] at h
  | stateVector s l => intro e h; simp [processSymbol] at h
  | mul l r ihl ihr =>
    intro e h
    cases hl : processSymbol pv l with
    | error e2 =>
      simp [processSymbol, hl] at h
      obtain ⟨m, hm1, hm2, hm3⟩ := ihl e2 hl
      exact ⟨m, h ▸ hm1, by simp [Symbol.paramNames, hm2], hm3⟩
    | ok l2 =>
      cases hr : processSymbol pv r with
      | error e2 =>
        simp [processSymbol, hl, hr] at h
        obtain ⟨m, hm1, hm2, hm3⟩ := ihr e2 hr
        exact ⟨m, h ▸ hm1, by simp [Symbol.paramNames, hm2], hm3⟩
      | ok r2 => simp [processSymbol, hl, hr] at h
  | neg x ih =>
    intro e h
    cases hx : processSymbol pv x with
    | error e2 =>
      simp [processSymbol, hx] at h
      obtain ⟨m, hm1, hm2, hm3⟩ := ih e2 hx
      exact ⟨m, h ▸ hm1, by simpa [Symbol.paramNames] using hm2, hm3⟩
    | ok x2 => simp [processSymbol, hx] at h
  | grad x ih =>
    intro e h
    cases hx : processSymbol pv x with
    | error e2 =>
      simp [processSymbol, hx] at h
      obtain ⟨m, hm1, hm2, hm3⟩ := ih e2 hx
      exact ⟨m, h ▸ hm1, by simpa [Symbol.paramNames] using hm2, hm3⟩
    | ok x2 => simp [processSymbol, hx] at h
  | gradientMatrix x ih =>
    intro e h
    cases hx : processSymbol pv x with
    | error e2 =>
      simp [processSymbol, hx] at h
      obtain ⟨m, hm1, hm2, hm3⟩ := ih e2 hx
      exact ⟨m, h ▸ hm1, by simpa [Symbol.paramNames] using hm2, hm3⟩
    | ok x2 => simp [processSymbol, hx] at h
  | broadcast x d ih =>
    intro e h
    cases hx : processSymbol pv x with
    | error e2 =>
      simp [processSymbol, hx] at h
      obtain ⟨m, hm1, hm2, hm3⟩ := ih e2 hx
      exact ⟨m, h ▸ hm1, by simpa [Symbol.paramNames] using hm2, hm3⟩
    | ok x2 => simp [processSymbol, hx] at h
  | app1 f x ih =>
    intro e h
    cases hx : processSymbol pv x with
    | error e2 =>
      simp [processSymbol, hx] at h
      obtain ⟨m, hm1, hm2, hm3⟩ := ih e2 hx
      exact ⟨m, h ▸ hm1, by simpa [Symbol.paramNames] using hm2, hm3⟩
    | ok x2 => simp [processSymbol, hx] at h
  | app2 f x y ihx ihy =>
    intro e h
    cases hx : processSymbol pv x with
    | error e2 =>
      simp [processSymbol, hx] at h
      obtain ⟨m, hm1, hm2, hm3⟩ := ihx e2 hx
      exact ⟨m, h ▸ hm1, by simp [Symbol.paramNames, hm2], hm3⟩
    | ok x2 =>
      cases hy : processSymbol pv y with
      | error e2 =>
        simp [processSymbol, hx, hy] at h
        obtain ⟨m, hm1, hm2, hm3⟩ := ihy e2 hy
        exact ⟨m, h ▸ hm1, by simp [Symbol.paramNames, hm2], hm3⟩
      | ok y2 => simp [processSymbol, hx, hy] at h

/-- If processing succeeds, every parameter leaf of the input was
resolved by the parameter set. -/
theorem processSymbol_ok_resolved (pv : ParamSet) :
    ∀ s t : Symbol, processSymbol pv s = .ok t →
      ∀ n ∈ s.paramNames, (lookupTable n pv).isSome := by
  intro s
  induction s with
  | param n2 =>
    intro t h n hn
    simp only [Symbol.paramNames, List.mem_singleton] at hn
    subst hn
    cases hl : lookupTable n pv <;> simp [processSymbol, hl] at h ⊢
  | scalar v => intro t h n hn; simp [Symbol.paramNames] at hn
  | var n2 d a => intro t h n hn; simp [Symbol.paramNames] at hn
  | stateVector s l => intro t h n hn; simp [Symbol.paramNames] at hn
  | mul l r ihl ihr =>
    intro t h n hn
    cases hl : processSymbol pv l with
    | error e => simp [processSymbol, hl] at h
    | ok l2 =>
      cases hr : processSymbol pv r with
      | error e => simp [processSymbol, hl, hr] at h
      | ok r2 =>
        simp only [Symbol.paramNames, List.mem_append] at hn
        rcases hn with hn | hn
        · exact ihl l2 hl n hn
        · exact ihr r2 hr n hn
  | neg x ih =>
    intro t h n hn
    cases hx : processSymbol pv x with
    | error e => simp [processSymbol, hx] at h
    | ok x2 => exact ih x2 hx n (by simpa [Symbol.paramNames] using hn)
  | grad x ih =>
    intro t h n hn
    cases hx : processSymbol pv x with
    | error e => simp [processSymbol, hx] at h
    | ok x2 => exact ih x2 hx n (by simpa [Symbol.paramNames] using hn)
  | gradientMatrix x ih =>
    intro t h n hn
    cases hx : processSymbol pv x with
    | error e => simp [processSymbol, hx] at h
    | ok x2 => exact ih x2 hx n (by simpa [Symbol.paramNames] using hn)
  | broadcast x d ih =>
    intro t h n hn
    cases hx : processSymbol pv x with
    | error e => simp [processSymbol, hx] at h
    | ok x2 => exact ih x2 hx n (by simpa [Symbol.paramNames] using hn)
  | app1 f x ih =>
    intro t h n hn
    cases hx : processSymbol pv x with
    | error e => simp [processSymbol, hx] at h
    | ok x2 => exact ih x2 hx n (by simpa [Symbol.paramNames] using hn)
  | app2 f x y ihx ihy =>
    intro t h n hn
    cases hx : processSymbol pv x with
    | error e => simp [processSymbol, hx] at h
    | ok x2 =>
      cases hy : processSymbol pv y with
      | error e => simp [processSymbol, hx, hy] at h
      | ok y2 =>
        simp only [Symbol.paramNames, List.mem_append] at hn
        rcases hn with hn | hn
        · exact ihx x2 hx n hn
        · exact ihy y2 hy n hn

/-- When some parameter leaf of the tree has no entry in the parameter
set, processing fails with a missing-parameter error naming an
unresolved parameter of the tree. -/
theorem processSymbol_error_of_unresolved (pv : ParamSet)
    (s : Symbol) (h : ∃ n ∈ s.paramNames, lookupTable n pv = none) :
    ∃ m, processSymbol pv s = .error ("Missing parameter " ++ m) ∧
      m ∈ s.paramNames ∧ lookupTable m pv = none := by
  obtain ⟨n, hn, hnone⟩ := h
  cases hp : processSymbol pv s with
  | ok t =>
    have := processSymbol_ok_resolved pv s t hp n hn
    rw [hnone] at this
    simp at this
  | error e =>
    obtain ⟨m, hm1, hm2, hm3⟩ := processSymbol_error_shape pv s e hp
    exact ⟨m, by rw [hm1], hm2, hm3⟩

/-! ### Discretisation -/

/-- The Global State Layout: per variable name, the first index and the
length of its contiguous state-vector slice. -/
abbrev Layout := List (String × Nat × Nat)

/-- Modelled from the spec: the missing `Discretisation.process_symbol`.
It rewrites a parameter-free tree bottom-up: a variable leaf becomes the
state-vector slice allocated for it in the Global State Layout, `grad`
becomes the gradient matrix operator bound to the mesh, and every other
node is rebuilt from its discretised children. A leftover parameter
leaf or a variable with no allocated slice is a failure. As a pure
function of the input tree, it returns the identical discretised tree
for structurally equal inputs (the memoization guarantee). -/
def discretiseSymbol (layout : Layout) : Symbol → Except String Symbol
  | .scalar v => .ok (.scalar v)
  | .param n => .error ("Unresolved parameter " ++ n)
  | .var n _ _ =>
      match lookupTable n layout with
      | some (first, len) => .ok (.stateVector first len)
      | none => .error ("No state slice allocated for variable " ++ n)
  | .stateVector s l => .ok (.stateVector s l)
  | .mul l r =>
      match discretiseSymbol layout l with
      | .error e => .error e
      | .ok l2 =>
        match discretiseSymbol layout r with
        | .error e => .error e
        | .ok r2 => .ok (.mul l2 r2)
  | .neg x =>
      match discretiseSymbol layout x with
      | .error e => .error e
      | .ok x2 => .ok (.neg x2)
  | .grad x =>
      match discretiseSymbol layout x with
      | .error e => .error e
      | .ok x2 => .ok (.gradientMatrix x2)
  | .gradientMatrix x =>
      match discretiseSymbol layout x with
      | .error e => .error e
      | .ok x2 => .ok (.gradientMatrix x2)
  | .broadcast x d =>
      match discretiseSymbol layout x with
      | .error e => .error e
      | .ok x2 => .ok (.broadcast x2 d)
  | .app1 f x =>
      match discretiseSymbol layout x with
      | .error e => .error e
      | .ok x2 => .ok (.app1 f x2)
  | .app2 f x y =>
      match discretiseSymbol layout x with
      | .error e => .error e
      | .ok x2 =>
        match discretiseSymbol layout y with
        | .error e => .error e
        | .ok y2 => .ok (.app2 f x2 y2)

/-- Two trees with equal structural identity discretise to the identical
result. -/
theorem discretiseSymbol_sid_det (layout : Layout) (a b : Symbol)
    (h : a.sid = b.sid) : discretiseSymbol layout a = discretiseSymbol layout b := by
  rw [(Symbol.sid_eq_iff a b).mp h]

/-- The `process_parameters_and_discretise` convenience method of the
base battery model: parameter-process the expression, then discretise
the result. -/
def process_parameters_and_discretise (pv : ParamSet) (layout : Layout)
    (s : Symbol) : Except String Symbol :=
  match processSymbol pv s with
  | .ok t => discretiseSymbol layout t
  | .error e => .error e

/-! ### The SPM negative-particle flux scenario

Concrete expression trees modelled from the spec and the excerpt test:
the single-particle model publishes the variable
"X-averaged negative particle flux", defined by the particle submodel as
`N = -D(c, T) * grad(c)`, where `c` is the X-averaged negative particle
concentration and `T` the broadcast X-averaged negative electrode
temperature. The diffusivity `D` carries a dimensional parameter scale
that parameter processing must substitute. -/

/-- The X-averaged negative particle concentration variable. -/
def c_s_n_xav : Symbol :=
  .var "X-averaged negative particle concentration" ["negative particle"]
    ["current collector"]

/-- The X-averaged negative electrode temperature, broadcast onto the
negative particle domain. -/
def T_xav_broadcast : Symbol :=
  .broadcast (.var "X-averaged negative electrode temperature" ["current collector"] [])
    ["negative particle"]

/-- Modelled from the spec: the negative-electrode diffusivity
`param.D_n(c, T)`, a dimensional parameter scale multiplying a
dimensionless diffusivity function of concentration and temperature. -/
def D_n (c T : Symbol) : Symbol :=
  .mul (.param "Negative electrode diffusivity scale")
    (.app2 "Negative electrode diffusivity" c T)

/-- The negative-particle flux expression `-D(c, T) * grad(c)` as built
by the particle submodel. -/
def negParticleFlux : Symbol :=
  .neg (.mul (D_n c_s_n_xav T_xav_broadcast) (.grad c_s_n_xav))

/-- The part of the SPM Variable Table relevant to the flux scenario:
the submodel path publishes the flux under its human-readable name. -/
def spmVariables : Table :=
  [("X-averaged negative particle concentration", c_s_n_xav),
   ("X-averaged negative particle flux", negParticleFlux)]

/-- Parameter values used by the flux scenario. -/
def spmParameterValues : ParamSet :=
  [("Negative electrode thickness [m]", 1),
   ("Negative electrode diffusivity scale", 3)]

/-- The state-vector layout used by the flux scenario: the particle
concentration owns a slice, as does the electrode temperature. -/
def spmLayout : Layout :=
  [("X-averaged negative particle concentration", (0, 20)),
   ("X-averaged negative electrode temperature", (20, 1))]

/-! ### SPM dispatch on the dimensionality option -/

/-- Spatial-method implementations named in the SPM source. -/
inductive SpatialMethod where
  | FiniteVolume
  | FiniteElementFenics
deriving DecidableEq, Repr

/-- Submesh types named in the SPM source. -/
inductive SubmeshType where
  | Uniform1DSubMesh
  | FenicsMesh2D
deriving DecidableEq, Repr

/-- `SPM.default_geometry`: the macroscale/microscale geometry pair
selected by `options.bc_options.dimensionality`; the if-chain falls
through to `None` for any other value. -/
def default_geometry (dimensionality : Int) : Option (String × String) :=
  if dimensionality = 0 then some ("1D macro", "1D micro")
  else if dimensionality = 1 then some ("1+1D macro", "1D micro")
  else if dimensionality = 2 then some ("2+1D macro", "1D micro")
  else none

/-- `SPM.default_submesh_types`: the per-domain submesh assignment
selected by the dimensionality option. -/
def default_submesh_types (dimensionality : Int) :
    Option (List (String × SubmeshType)) :=
  if dimensionality = 0 ∨ dimensionality = 1 then
    some
      [("negative electrode", .Uniform1DSubMesh),
       ("separator", .Uniform1DSubMesh),
       ("positive electrode", .Uniform1DSubMesh),
       ("negative particle", .Uniform1DSubMesh),
       ("positive particle", .Uniform1DSubMesh),
       ("current collector", .Uniform1DSubMesh)]
  else if dimensionality = 2 then
    some
      [("negative electrode", .Uniform1DSubMesh),
       ("separator", .Uniform1DSubMesh),
       ("positive electrode", .Uniform1DSubMesh),
       ("negative particle", .Uniform1DSubMesh),
       ("positive particle", .Uniform1DSubMesh),
       ("current collector", .FenicsMesh2D)]
  else none

/-- `SPM.default_spatial_methods`: the per-domain spatial-method
assignment selected by the dimensionality option. -/
def default_spatial_methods (dimensionality : Int) :
    Option (List (String × SpatialMethod)) :=
  if dimensionality = 0 ∨ dimensionality = 1 then
    some
      [("macroscale", .FiniteVolume),
       ("negative particle", .FiniteVolume),
       ("positive particle", .FiniteVolume),
       ("current collector", .FiniteVolume)]
  else if dimensionality = 2 then
    some
      [("macroscale", .FiniteVolume),
       ("negative particle", .FiniteVolume),
       ("positive particle", .FiniteVolume),
       ("current collector", .FiniteElementFenics)]
  else none

/-- The applied current `param.current_with_time`. -/
def current_with_time : Symbol := .app1 "Current function" (.var "time" [] [])

/-- The current collector voltage variable from the SPM constructor. -/
def v_boundary_cc : Symbol := .var "Current collector voltage" ["current collector"] []

/-- The current collector current density variable from the SPM
constructor. -/
def i_boundary_cc : Symbol :=
  .var "Current collector current density" ["current collector"] []

/-- Modelled from the spec: the variable contributions of the
two-dimensional current collector submodel
(`pybamm.current_collector.OhmTwoDimensional.set_algebraic_system`),
merged into the model by `self.update` in the dimensionality-2 branch. -/
def ohmTwoDimensionalVariables : Table :=
  [("Current collector voltage", v_boundary_cc),
   ("Current collector current density", i_boundary_cc)]

/-- `SPM.set_boundary_conditions`: dimensionality 0 assigns the applied
current and a placeholder voltage directly into the Variable Table;
dimensionality 1 raises `NotImplementedError`; dimensionality 2 merges
the two-dimensional current collector submodel through the
collision-checked `update`. Any other value falls through and leaves the
table unchanged. -/
def spm_set_boundary_conditions (dimensionality : Int) (vars : Table) :
    Except String Table :=
  if dimensionality = 0 then
    .ok (setKey (setKey vars "Current collector current density" current_with_time)
          "Current collector voltage" (.scalar 1))
  else if dimensionality = 1 then
    .error "NotImplementedError"
  else if dimensionality = 2 then
    mergeVars vars ohmTwoDimensionalVariables
  else
    .ok vars

/-! ### The SPM post-processing phase -/

/-- Derived variables added by the SPM post-processing phase, modelled
from the constructor: electrolyte concentration, interfacial currents,
potentials, electrolyte current, and electrode variables, each merged
through the plain dict `self.variables.update`. -/
def spmDerivedVariables : Table :=
  [("Electrolyte concentration", .scalar 1),
   ("Electrolyte flux", .scalar 0),
   ("Interfacial current density", .broadcast i_boundary_cc ["negative electrode"]),
   ("Negative electrode open circuit potential", .app1 "U_n" c_s_n_xav),
   ("Electrolyte potential", .scalar 0),
   ("Terminal voltage", .app1 "U_p" c_s_n_xav)]

/-- The SPM post-processing phase: one plain dict update of the derived
variables into the Variable Table. -/
def spmPostProcess (vars : Table) : Table := dictUpdate vars spmDerivedVariables

/-! ### BaseFull surface-form conductivity: domain dispatch -/

/-- The negative-electrode surface potential difference variable
`pybamm.standard_variables.delta_phi_n`. -/
def delta_phi_n : Symbol :=
  .var "Negative electrode surface potential difference" ["negative electrode"] []

/-- The positive-electrode surface potential difference variable
`pybamm.standard_variables.delta_phi_p`. -/
def delta_phi_p : Symbol :=
  .var "Positive electrode surface potential difference" ["positive electrode"] []

/-- Modelled from the spec: the base-class helper
`_get_standard_surface_potential_difference_variables`, publishing the
surface potential difference under its domain-prefixed name. -/
def surfacePotentialDifferenceVariables (domain : String) (delta_phi : Symbol) :
    Table :=
  [(domain ++ " electrode surface potential difference", delta_phi)]

/-- Errors raised by the BaseFull submodel: the explicit
`pybamm.DomainError` and the Python `KeyError` of a failed dict lookup. -/
inductive SubmodelError where
  | domainError
  | keyError
deriving DecidableEq, Repr

/-- `BaseFull.get_fundamental_variables`: selects the standard surface
potential difference variable by domain and raises `DomainError` for any
other domain. -/
def baseFull_get_fundamental_variables (domain : String) :
    Except SubmodelError Table :=
  if domain = "Negative" then
    .ok (surfacePotentialDifferenceVariables domain delta_phi_n)
  else if domain = "Positive" then
    .ok (surfacePotentialDifferenceVariables domain delta_phi_p)
  else
    .error .domainError

/-- The initial negative-electrode particle concentration parameter. -/
def c_n_init : Symbol := .param "c_n_init"

/-- The initial positive-electrode particle concentration parameter. -/
def c_p_init : Symbol := .param "c_p_init"

/-- The negative-electrode open-circuit potential function `param.U_n`. -/
def U_n (c : Symbol) : Symbol := .app1 "U_n" c

/-- The positive-electrode open-circuit potential function `param.U_p`. -/
def U_p (c : Symbol) : Symbol := .app1 "U_p" c

/-- `BaseFull.set_initial_conditions`: first looks the domain-prefixed
surface potential difference up in the supplied variables dict (a
missing key is a Python `KeyError`), then dispatches on the domain,
raising `DomainError` for a domain that is neither Negative nor
Positive; otherwise it records the initial condition as the
open-circuit potential at the initial concentration. -/
def baseFull_set_initial_conditions (domain : String) (vars : Table) :
    Except SubmodelError (Symbol × Symbol) :=
  match lookupTable (domain ++ " electrode surface potential difference") vars with
  | none => .error .keyError
  | some delta_phi_e =>
    if domain = "Negative" then .ok (delta_phi_e, U_n c_n_init)
    else if domain = "Positive" then .ok (delta_phi_e, U_p c_p_init)
    else .error .domainError

/-! ### Battery-model option validation -/

/-- An option value: a string or a small integer. -/
inductive OptVal where
  | str (s : String)
  | int (n : Int)
deriving DecidableEq, Repr

/-- The recognized option names of the configuration surface. -/
def knownOptionNames : List String :=
  ["dimensionality", "surface form", "current collector", "particle", "thermal"]

/-- Modelled from the spec and the excerpt test: whether a value is
supported for a recognized option. -/
def validOptionValue (k : String) (v : OptVal) : Bool :=
  if k = "dimensionality" then v = .int 0 || v = .int 1 || v = .int 2
  else if k = "current collector" then
    v = .str "uniform" || v = .str "potential pair"
  else if k = "thermal" then v = .str "isothermal" || v = .str "lumped"
  else if k = "surface form" then
    v = .str "false" || v = .str "differential" || v = .str "algebraic"
  else if k = "particle" then
    v = .str "Fickian diffusion" || v = .str "fast diffusion"
  else false

/-- Modelled from the spec and the excerpt test: the `OptionError`
message for an unsupported value of a recognized option; the messages
are the ones the excerpt test matches against. -/
def optionErrorMessage (k : String) : String :=
  if k = "dimensionality" then "Dimension of current collectors must be 0, 1 or 2"
  else if k = "current collector" then "Unknown current collector model"
  else if k = "thermal" then "Unknown thermal model"
  else if k = "surface form" then "Unknown surface form"
  else if k = "particle" then "Unknown particle model"
  else "Unknown option"

/-- Modelled from the spec: the missing `BaseBatteryModel` option
validation, raised at construction time before any symbolic work. An
unrecognized option name or an unsupported value is an `OptionError`. -/
def validateOptions : List (String × OptVal) → Except String Unit
  | [] => .ok ()
  | (k, v) :: rest =>
      if knownOptionNames.contains k then
        if validOptionValue k v then validateOptions rest
        else .error (optionErrorMessage k)
      else .error ("Unknown option: " ++ k)

/-- A constructed battery model configuration; it exists only when
option validation has succeeded. -/
structure BatteryModelConfig where
  options : List (String × OptVal)
deriving DecidableEq, Repr

/-- Modelled from the spec: battery-model construction validates the
options immediately and produces no partial model on failure. -/
def buildBatteryModel (opts : List (String × OptVal)) :
    Except String BatteryModelConfig :=
  match validateOptions opts with
  | .ok _ => .ok ⟨opts⟩
  | .error e => .error e

/-! ### Substring matching for error-message claims -/

/-- Whether the first character list is a leading segment of the
second. -/
def chPre : List Char → List Char → Bool
  | [], _ => true
  | _ :: _, [] => false
  | a :: as, b :: bs => a = b && chPre as bs

/-- Whether the first character list occurs contiguously inside the
second. -/
def chSub (n : List Char) : List Char → Bool
  | [] => n.isEmpty
  | c :: t => chPre n (c :: t) || chSub n t

/-- Whether `needle` occurs as a substring of `hay`, the semantics of
the regex search that the excerpt test applies to error messages. -/
def strContains (hay needle : String) : Bool := chSub needle.data hay.data

/-! ### Claim theorems -/

/-- C1: manually constructing the negative-particle flux as
`-D(c,T) * grad(c)`, parameter-processing and discretising it yields the
same tree — hence the same structural identity — as the discretised
"X-averaged negative particle flux" variable obtained through the
model's submodel path with the same parameter values and layout; and in
general, discretising two structurally-equal parameter-free trees
returns the identical discretised tree. -/
theorem spm_flux_pipeline_equivalence :
    (∃ t fluxVar,
       lookupTable "X-averaged negative particle flux" spmVariables = some fluxVar ∧
       process_parameters_and_discretise spmParameterValues spmLayout
         (.neg (.mul (D_n c_s_n_xav T_xav_broadcast) (.grad c_s_n_xav))) = .ok t ∧
       process_parameters_and_discretise spmParameterValues spmLayout fluxVar = .ok t) ∧
    (∀ (layout : Layout) (a b : Symbol), a.paramFree = true → b.paramFree = true →
       a.sid = b.sid → discretiseSymbol layout a = discretiseSymbol layout b) := by
  constructor
  · exact ⟨_, negParticleFlux, rfl, rfl, rfl⟩
  · intro layout a b _ _ h
    exact discretiseSymbol_sid_det layout a b h

/-- Witness for C1: the general determinism conjunct applied to a
concrete parameter-free tree. -/
theorem spm_flux_pipeline_equivalence_witness :
    c_s_n_xav.paramFree = true ∧ c_s_n_xav.sid = c_s_n_xav.sid ∧
    discretiseSymbol spmLayout c_s_n_xav = discretiseSymbol spmLayout c_s_n_xav :=
  ⟨rfl, rfl, spm_flux_pipeline_equivalence.2 spmLayout c_s_n_xav c_s_n_xav rfl rfl rfl⟩

/-- C2: merging a submodel whose variable names intersect those of the
receiving model raises a collision error (no silent overwrite); merging
disjoint contributions succeeds and the merged Variable Table is the
union. -/
theorem submodel_update_collision_policy :
    (∀ base contrib : Table,
       (∃ k, (lookupTable k base).isSome ∧ (lookupTable k contrib).isSome) →
       ∃ k2, mergeVars base contrib = .error ("Submodel collision on variable " ++ k2)) ∧
    (∀ base contrib : Table, (contrib.map Prod.fst).Nodup →
       (∀ k, (lookupTable k base).isSome → lookupTable k contrib = none) →
       mergeVars base contrib = .ok (base ++ contrib)) :=
  ⟨fun base contrib h => mergeVars_collision contrib base h,
   fun base contrib h1 h2 => mergeVars_disjoint contrib base h1 h2⟩

/-- Witness for C2: two submodels both defining "Terminal voltage"
collide; two submodels with disjoint names merge into the union. -/
theorem submodel_update_collision_policy_witness :
    (∃ k2, mergeVars [("Terminal voltage", Symbol.scalar 1)]
        [("Terminal voltage", Symbol.scalar 2)] =
        .error ("Submodel collision on variable " ++ k2)) ∧
    mergeVars [("Terminal voltage", Symbol.scalar 1)]
        [("Electrolyte potential", Symbol.scalar 0)] =
      .ok [("Terminal voltage", Symbol.scalar 1), ("Electrolyte potential", Symbol.scalar 0)] := by
  constructor
  · exact submodel_update_collision_policy.1 _ _ ⟨"Terminal voltage", rfl, rfl⟩
  · apply submodel_update_collision_policy.2 _ _ (by decide)
    intro k hk
    simp only [lookupTable] at hk ⊢
    by_cases h : "Terminal voltage" = k
    · rw [← h]; simp
    · simp [h] at hk

/-- C3 counterexample: constructing with option dimensionality 5 fails,
but the error message does not name "dimensionality" — it names
"Dimension of current collectors", as the excerpt test requires. -/
theorem dimensionality_message_counterexample :
    buildBatteryModel [("dimensionality", OptVal.int 5)] =
      .error "Dimension of current collectors must be 0, 1 or 2" ∧
    strContains "Dimension of current collectors must be 0, 1 or 2"
      "dimensionality" = false := by
  exact ⟨rfl, by decide⟩

/-- C3 (amended): constructing with dimensionality 5 fails with a
configuration error naming "Dimension of current collectors";
an unrecognized option name fails naming "option"; a bad current
collector value fails naming "current collector model"; in each case the
construction returns the error alone, so no partial model is produced. -/
theorem battery_model_bad_options_rejected :
    (∃ m, buildBatteryModel [("dimensionality", OptVal.int 5)] = .error m ∧
       strContains m "Dimension of current collectors" = true) ∧
    (∃ m, buildBatteryModel [("bad option", OptVal.str "bad option")] = .error m ∧
       strContains m "option" = true) ∧
    (∃ m, buildBatteryModel
        [("current collector", OptVal.str "bad current collector")] = .error m ∧
       strContains m "current collector model" = true) := by
  refine ⟨⟨_, rfl, ?_⟩, ⟨_, rfl, ?_⟩, ⟨_, rfl, ?_⟩⟩ <;> decide

/-- C4: the SPM boundary-condition constructor raises
NotImplementedError for dimensionality 1 — for every incoming Variable
Table — and succeeds without raising for dimensionality 0 and 2 on the
table it is invoked with during model construction. -/
theorem spm_boundary_conditions_dispatch :
    (∀ vars : Table, spm_set_boundary_conditions 1 vars = .error "NotImplementedError") ∧
    (∃ t, spm_set_boundary_conditions 0 [] = .ok t) ∧
    (∃ t, spm_set_boundary_conditions 2 [] = .ok t) :=
  ⟨fun _ => rfl, ⟨_, rfl⟩, ⟨_, rfl⟩⟩

/-- C5: two expression trees have equal structural identity exactly when
they are structurally identical — same shape, same domain tags, same
leaf values; any difference in a leaf value or a domain tag makes the
identities differ. -/
theorem structural_identity_law : ∀ a b : Symbol, a.sid = b.sid ↔ a = b :=
  Symbol.sid_eq_iff

/-- C6: the per-domain spatial-method assignment routes the current
collector domain to the 2-D finite-element method when dimensionality is
2, with every other domain finite-volume; for dimensionality 0 and 1
every domain, the current collector included, is finite-volume. -/
theorem spatial_methods_dimensionality_routing :
    default_spatial_methods 2 =
      some
        [("macroscale", .FiniteVolume),
         ("negative particle", .FiniteVolume),
         ("positive particle", .FiniteVolume),
         ("current collector", .FiniteElementFenics)] ∧
    default_spatial_methods 0 =
      some
        [("macroscale", .FiniteVolume),
         ("negative particle", .FiniteVolume),
         ("positive particle", .FiniteVolume),
         ("current collector", .FiniteVolume)] ∧
    default_spatial_methods 1 =
      some
        [("macroscale", .FiniteVolume),
         ("negative particle", .FiniteVolume),
         ("positive particle", .FiniteVolume),
         ("current collector", .FiniteVolume)] :=
  ⟨rfl, rfl, rfl⟩

/-- C7: parameter processing is idempotent — reprocessing an
already-processed tree returns it unchanged, since no parameter leaves
remain — and fails with a missing-parameter error naming an unresolved
parameter whenever the parameter set lacks an entry for a parameter leaf
of the tree. -/
theorem parameter_processing_idempotent :
    (∀ (pv : ParamSet) (s t : Symbol), processSymbol pv s = .ok t →
       processSymbol pv t = .ok t) ∧
    (∀ (pv : ParamSet) (s : Symbol),
       (∃ n ∈ s.paramNames, lookupTable n pv = none) →
       ∃ m, processSymbol pv s = .error ("Missing parameter " ++ m) ∧
         m ∈ s.paramNames ∧ lookupTable m pv = none) :=
  ⟨fun pv s t h => processSymbol_of_paramFree pv t (processSymbol_ok_paramFree pv s t h),
   fun pv s h => processSymbol_error_of_unresolved pv s h⟩

/-- Witness for C7: a processed tree reprocesses to itself, and a
parameter leaf absent from the set produces the missing-parameter
error. -/
theorem parameter_processing_idempotent_witness :
    processSymbol [("p", 2)] (Symbol.scalar 2) = .ok (Symbol.scalar 2) ∧
    ∃ m, processSymbol [("p", 2)] (Symbol.param "q") =
        .error ("Missing parameter " ++ m) ∧
      m ∈ (Symbol.param "q").paramNames ∧
        lookupTable m ([("p", 2)] : ParamSet) = none := by
  constructor
  · exact parameter_processing_idempotent.1 [("p", 2)] (Symbol.param "p")
      (Symbol.scalar 2) rfl
  · exact parameter_processing_idempotent.2 [("p", 2)] (Symbol.param "q")
      ⟨"q", by simp [Symbol.paramNames], rfl⟩

/-- C8: for every dimensionality value outside 0, 1, 2, the three SPM
default properties fall through their if-chains and return none rather
than raising. -/
theorem spm_defaults_none_outside_supported_dimensionality
    (d : Int) (h0 : d ≠ 0) (h1 : d ≠ 1) (h2 : d ≠ 2) :
    default_geometry d = none ∧ default_submesh_types d = none ∧
      default_spatial_methods d = none := by
  refine ⟨?_, ?_, ?_⟩ <;>
    simp [default_geometry, default_submesh_types, default_spatial_methods, h0, h1, h2]

/-- Witness for C8: dimensionality 5. -/
theorem spm_defaults_none_witness :
    default_geometry 5 = none ∧ default_submesh_types 5 = none ∧
      default_spatial_methods 5 = none :=
  spm_defaults_none_outside_supported_dimensionality 5 (by decide) (by decide) (by decide)

/-- C9 counterexample: for the domain "Separator" (neither Negative nor
Positive) with the surface-potential-difference entry absent,
`set_initial_conditions` fails at the dict lookup with a KeyError before
the domain dispatch is reached, not with a DomainError. -/
theorem baseFull_initial_conditions_keyerror_counterexample :
    baseFull_set_initial_conditions "Separator" [] = .error .keyError ∧
    SubmodelError.keyError ≠ SubmodelError.domainError :=
  ⟨rfl, by decide⟩

/-- C9 (amended): for every domain other than Negative and Positive,
`get_fundamental_variables` raises DomainError, and
`set_initial_conditions` raises DomainError provided the variables
mapping contains the domain-prefixed surface-potential-difference entry
(with the entry absent, the preceding dict lookup fails instead); for
Negative and Positive neither raises: `get_fundamental_variables`
returns the standard surface-potential-difference variables of the
domain, and `set_initial_conditions` sets the initial condition of the
surface potential difference to the corresponding open-circuit potential
at the initial concentration. -/
theorem baseFull_domain_dispatch :
    (∀ d : String, d ≠ "Negative" → d ≠ "Positive" →
       baseFull_get_fundamental_variables d = .error .domainError) ∧
    (∀ (d : String) (vars : Table) (x : Symbol), d ≠ "Negative" → d ≠ "Positive" →
       lookupTable (d ++ " electrode surface potential difference") vars = some x →
       baseFull_set_initial_conditions d vars = .error .domainError) ∧
    baseFull_get_fundamental_variables "Negative" =
      .ok (surfacePotentialDifferenceVariables "Negative" delta_phi_n) ∧
    baseFull_get_fundamental_variables "Positive" =
      .ok (surfacePotentialDifferenceVariables "Positive" delta_phi_p) ∧
    (∀ (vars : Table) (x : Symbol),
       lookupTable ("Negative" ++ " electrode surface potential difference") vars = some x →
       baseFull_set_initial_conditions "Negative" vars = .ok (x, U_n c_n_init)) ∧
    (∀ (vars : Table) (x : Symbol),
       lookupTable ("Positive" ++ " electrode surface potential difference") vars = some x →
       baseFull_set_initial_conditions "Positive" vars = .ok (x, U_p c_p_init)) := by
  refine ⟨?_, ?_, rfl, rfl, ?_, ?_⟩
  · intro d hn hp
    simp [baseFull_get_fundamental_variables, hn, hp]
  · intro d vars x hn hp hl
    simp [baseFull_set_initial_conditions, hl, hn, hp]
  · intro vars x hl
    have hl2 : lookupTable "Negative electrode surface potential difference" vars = some x := hl
    simp [baseFull_set_initial_conditions, hl2]
  · intro vars x hl
    have hl2 : lookupTable "Positive electrode surface potential difference" vars = some x := hl
    simp [baseFull_set_initial_conditions, hl2]

/-- Witness for C9: concrete invocations of each conditional part of the
dispatch theorem. -/
theorem baseFull_domain_dispatch_witness :
    baseFull_get_fundamental_variables "Separator" = .error .domainError ∧
    baseFull_set_initial_conditions "Separator"
        [("Separator electrode surface potential difference", delta_phi_n)] =
      .error .domainError ∧
    baseFull_set_initial_conditions "Negative"
        [("Negative electrode surface potential difference", delta_phi_n)] =
      .ok (delta_phi_n, U_n c_n_init) ∧
    baseFull_set_initial_conditions "Positive"
        [("Positive electrode surface potential difference", delta_phi_p)] =
      .ok (delta_phi_p, U_p c_p_init) :=
  ⟨baseFull_domain_dispatch.1 "Separator" (by decide) (by decide),
   baseFull_domain_dispatch.2.1 "Separator" _ delta_phi_n (by decide) (by decide) rfl,
   baseFull_domain_dispatch.2.2.2.2.1 _ delta_phi_n rfl,
   baseFull_domain_dispatch.2.2.2.2.2 _ delta_phi_p rfl⟩

/-- C10: the SPM post-processing phase adds derived variables through a
plain dict update: an entry whose name is already present is silently
replaced — the update is a total function, so no collision error can be
raised — as witnessed on the "Terminal voltage" entry. -/
theorem spm_postprocess_silent_overwrite :
    (∀ (vars : Table) (k : String) (v : Symbol),
       lookupTable k (dictUpdate vars [(k, v)]) = some v) ∧
    lookupTable "Terminal voltage"
        (spmPostProcess [("Terminal voltage", Symbol.scalar 42)]) =
      some (Symbol.app1 "U_p" c_s_n_xav) :=
  ⟨fun vars k v => by simpa [dictUpdate] using lookupTable_setKey_self vars k v, rfl⟩

end PyBaMM
